import Mathlib

/-!
Verification development for the Divisor-PDF core: the page-range parser
(`parsePageRanges`, services/pageParser) and the extraction pipeline
(`pdfProcessor`, services/pdfProcessor.ts), embedded shallowly.

Strings are handled as `List Char`; JavaScript numbers that hold page
numbers are `Int`/`Nat`; progress percentages are `ℚ`; fallible steps
return `Option`/`Except`.  The pdf-lib engine is out of scope in the
design (an opaque capability), so a source document is modelled as an
oracle: its page count plus, for each page index, the observable result
of the extract-page-and-serialize step (the produced bytes, or failure).
-/

deriving instance DecidableEq for Except

namespace PdfSplit

/-- JS whitespace as matched by the character class backslash-s and by
`String.prototype.trim` (the ASCII members plus NBSP and BOM, the forms
that occur in practice). -/
def isJSWhitespace (c : Char) : Bool :=
  c == ' ' || c == '\t' || c == '\n' || c == '\r' || c == '\x0B' || c == '\x0C' ||
    c == '\u00A0' || c == '\uFEFF'

/-- Characters accepted by the sanitizing regex of `parsePageRanges`:
digits, comma, hyphen, whitespace. -/
def isAllowedChar (c : Char) : Bool :=
  c.isDigit || c == ',' || c == '-' || isJSWhitespace c

/-- JS String.prototype.trim on a character list. -/
def trimChars (l : List Char) : List Char :=
  ((l.dropWhile isJSWhitespace).reverse.dropWhile isJSWhitespace).reverse

/-- JS String.prototype.split with a single-character separator; always
returns at least one piece, empty pieces included. -/
def splitOnChar (sep : Char) : List Char → List (List Char)
  | [] => [[]]
  | c :: cs =>
    match splitOnChar sep cs with
    | [] => [[c]]
    | r :: rs => if c == sep then [] :: r :: rs else (c :: r) :: rs

/-- Base-10 value of a digit run. -/
def digitsToNat (l : List Char) : Nat :=
  l.foldl (fun acc c => 10 * acc + (c.toNat - '0'.toNat)) 0

/-- The leading decimal-digit run consumed by `parseInt(s, 10)`; `none`
when there is no leading digit (JS `NaN`). -/
def parseDigits (l : List Char) : Option Nat :=
  match l.takeWhile Char.isDigit with
  | [] => none
  | ds => some (digitsToNat ds)

/-- JS `parseInt(s, 10)`: skip leading whitespace, optional sign, then
the leading digit run; `NaN` is modelled as `none`. -/
def parseIntJS (l : List Char) : Option Int :=
  match l.dropWhile isJSWhitespace with
  | '-' :: rest => (parseDigits rest).map (fun n : ℕ => -(n : ℤ))
  | '+' :: rest => (parseDigits rest).map (fun n : ℕ => (n : ℤ))
  | t => (parseDigits t).map (fun n : ℕ => (n : ℤ))

/-- JS `Set.prototype.add` on an insertion-ordered, duplicate-free list:
the element is appended only when it is not already present. -/
def setAdd (pageNumbers : List ℤ) (x : ℤ) : List ℤ :=
  if x ∈ pageNumbers then pageNumbers else pageNumbers ++ [x]

/-- The successive loop variables of `for (let i = start; i <= end; i++)`:
the integers from `s` to `e` inclusive, ascending (empty when `e < s`). -/
def rangeInts (s e : ℤ) : List ℤ :=
  (List.range (e + 1 - s).toNat).map (fun k : ℕ => s + (k : ℤ))

/-- One iteration of the token loop of `parsePageRanges` (the body of the
`for (const part of parts)` loop): a token containing a hyphen is a RANGE
token, otherwise a SINGLE token. -/
def processToken (totalPages : ℕ) (pageNumbers : List ℤ) (part : List Char) :
    Except String (List ℤ) :=
  if part.contains '-' then
    match splitOnChar '-' part with
    | [r0, r1] =>
      if trimChars r0 = [] ∨ trimChars r1 = [] then
        .error "error_pageSelection_invalidRangeFormat"
      else
        match parseIntJS r0, parseIntJS r1 with
        | some s, some e =>
          if s > e then .error "error_pageSelection_invalidRangeOrder"
          else if s < 1 ∨ e > (totalPages : ℤ) then .error "error_pageSelection_outOfBounds"
          else .ok ((rangeInts s e).foldl setAdd pageNumbers)
        | _, _ => .error "error_pageSelection_invalidRangeFormat"
    | _ => .error "error_pageSelection_invalidRangeFormat"
  else
    match parseIntJS part with
    | none => .error "error_pageSelection_invalidNumber"
    | some pageNum =>
      if pageNum < 1 ∨ pageNum > (totalPages : ℤ) then
        .error "error_pageSelection_outOfBounds"
      else .ok (setAdd pageNumbers pageNum)

/-- The token loop of `parsePageRanges` over all comma-split, trimmed
tokens, threading the accumulating page-number set. -/
def processTokens (totalPages : ℕ) : List (List Char) → List ℤ → Except String (List ℤ)
  | [], pageNumbers => .ok pageNumbers
  | part :: rest, pageNumbers =>
    match processToken totalPages pageNumbers part with
    | .error e => .error e
    | .ok pageNumbers' => processTokens totalPages rest pageNumbers'

/-- parsePageRanges from services/pageParser: parse a selection string
such as "1, 3-5, 8" into the ascending list of unique 1-based page
numbers, or fail with the source's symbolic error key.  The final
`Array.from(set).sort((a, b) => a - b)` is the numeric ascending sort of
the accumulated duplicate-free set. -/
def parsePageRanges (selection : String) (totalPages : ℕ) : Except String (List ℤ) :=
  let cs := selection.toList
  if cs = [] ∨ trimChars cs = [] then .error "error_pageSelection_empty"
  else if ¬ (cs ≠ [] ∧ cs.all isAllowedChar = true) then
    .error "error_pageSelection_invalidChars"
  else
    match processTokens totalPages ((splitOnChar ',' cs).map trimChars) [] with
    | .error e => .error e
    | .ok pageNumbers =>
      if pageNumbers = [] then .error "error_pageSelection_empty"
      else .ok (pageNumbers.insertionSort (· ≤ ·))

/-- ProcessStage from the shared types module. -/
inductive ProcessStage
  | QUEUED
  | ANALYZING
  | SPLITTING
  | DONE
deriving DecidableEq, Repr

/-- PageStatus from the shared types module. -/
inductive PageStatus
  | PROCESSING
  | OK
  | ERROR
deriving DecidableEq, Repr

/-- PageResult from the shared types module; the optional `blob` holds
the serialized single-page document's bytes when present. -/
structure PageResult where
  pageNumber : ℤ
  finalSize : ℕ
  status : PageStatus
  blob : Option (List ℕ)
deriving DecidableEq, Repr

/-- The argument of one `onProgress` call: `totalPages` is carried only
by the snapshot that starts the SPLITTING stage. -/
structure ProgressUpdate where
  stage : ProcessStage
  overallProgress : ℚ
  processedPages : ℕ
  totalPages : Option ℕ
deriving DecidableEq, Repr

/-- One observable action of the generator: an `onProgress` call or a
`yield` of a PageResult, in program order. -/
inductive Event
  | progress (u : ProgressUpdate)
  | yield (r : PageResult)
deriving DecidableEq, Repr

/-- A loaded source document, as the pipeline observes it through the
opaque pdf-lib capability: its page count, and for each 0-based page
index the result of `extractPage` followed by `save` — the serialized
single-page document's bytes, or `none` when that copy/serialize step
throws. -/
structure SourceDoc where
  pageCount : ℕ
  extractPage : ℤ → Option (List ℕ)

/-- The body of the try/catch around one page: the `PageResult` built for
the page at `pageIndex`.  `status` starts as PROCESSING and is always
overwritten to OK (success) or ERROR (caught failure) before the record
is assembled. -/
def processPage (doc : SourceDoc) (pageIndex : ℤ) : PageResult :=
  match doc.extractPage pageIndex with
  | some pageBytes =>
    { pageNumber := pageIndex + 1
      finalSize := pageBytes.length
      status := .OK
      blob := some pageBytes }
  | none =>
    { pageNumber := pageIndex + 1
      finalSize := 0
      status := .ERROR
      blob := none }

/-- The events of one iteration of the page loop at position `i` (0-based)
out of `n` targets: the progress call, then the yield. -/
def pageStep (doc : SourceDoc) (n : ℕ) (i : ℕ) (pageIndex : ℤ) : List Event :=
  [.progress
      { stage := .SPLITTING
        overallProgress := 10 + 90 * (((i + 1 : ℕ) : ℚ) / (n : ℚ))
        processedPages := i + 1
        totalPages := none },
   .yield (processPage doc pageIndex)]

/-- Step 3 of the pipeline: the 0-based target indices.  `pagesToExtract`
is an optional parameter tested for JS truthiness, so both `none` and the
empty string select every page `0 .. pageCount-1`; a non-empty selection
string goes through the Range Parser (1-based numbers, shifted down by
one), whose failure propagates unchanged. -/
def resolveTargets (doc : SourceDoc) (pagesToExtract : Option String) :
    Except String (List ℤ) :=
  match pagesToExtract with
  | some s =>
    if s.isEmpty then .ok ((List.range doc.pageCount).map (fun i : ℕ => (i : ℤ)))
    else (parsePageRanges s doc.pageCount).map (List.map (fun p => p - 1))
  | none => .ok ((List.range doc.pageCount).map (fun i : ℕ => (i : ℤ)))

/-- pdfProcessor from services/pdfProcessor.ts.  The `PDFDocument.load`
call is modelled by the `loadedPdf` oracle (`none` when the bytes cannot
be parsed into a document).  The run is summarized by its ordered list of
observable events together with the terminal error, `none` when the
generator completes normally. -/
def pdfProcessor (loadedPdf : Option SourceDoc) (pagesToExtract : Option String) :
    List Event × Option String :=
  let ev0 : List Event :=
    [.progress { stage := .ANALYZING, overallProgress := 5, processedPages := 0, totalPages := none }]
  match loadedPdf with
  | none => (ev0, some "error_pdf_load")
  | some sourcePdfDoc =>
    match resolveTargets sourcePdfDoc pagesToExtract with
    | .error e => (ev0, some e)
    | .ok pageIndicesToProcess =>
      let totalPagesToProcess := pageIndicesToProcess.length
      (ev0 ++
        [.progress
            { stage := .SPLITTING
              overallProgress := 10
              processedPages := 0
              totalPages := some totalPagesToProcess }] ++
        pageIndicesToProcess.enum.flatMap
          (fun ip => pageStep sourcePdfDoc totalPagesToProcess ip.1 ip.2) ++
        [.progress
            { stage := .DONE
              overallProgress := 100
              processedPages := totalPagesToProcess
              totalPages := none }],
       none)

/-- The PageResult values yielded by a run, in order. -/
def yieldsOf (events : List Event) : List PageResult :=
  events.filterMap (fun ev => match ev with | .yield r => some r | _ => none)

/-- The progress snapshots emitted by a run, in order. -/
def progressOf (events : List Event) : List ProgressUpdate :=
  events.filterMap (fun ev => match ev with | .progress u => some u | _ => none)

/-- A one-page document whose single page extracts successfully. -/
def docOne : SourceDoc := { pageCount := 1, extractPage := fun _ => some [1] }

/-- A two-page document where every extraction succeeds. -/
def docTwo : SourceDoc := { pageCount := 2, extractPage := fun _ => some [9, 9, 9] }

/-- A three-page document whose page at 0-based index 1 fails to
copy/serialize. -/
def docFail : SourceDoc :=
  { pageCount := 3, extractPage := fun i => if i = 1 then none else some [7, 7] }

/-- A zero-page document. -/
def docZero : SourceDoc := { pageCount := 0, extractPage := fun _ => none }

example : parsePageRanges "1,3-5,8" 10 = .ok [1, 3, 4, 5, 8] := by decide
example : parsePageRanges "2,2,1-2" 5 = .ok [1, 2] := by decide
example : parsePageRanges "5-2" 10 = .error "error_pageSelection_invalidRangeOrder" := by decide
example : parsePageRanges "1-20" 10 = .error "error_pageSelection_outOfBounds" := by decide
example : parsePageRanges "a,b" 10 = .error "error_pageSelection_invalidChars" := by decide
example : parsePageRanges "3-" 10 = .error "error_pageSelection_invalidRangeFormat" := by decide
example : parsePageRanges "-3" 10 = .error "error_pageSelection_invalidRangeFormat" := by decide
example : parsePageRanges "   " 7 = .error "error_pageSelection_empty" := by decide
example : parsePageRanges "1 2" 5 = .ok [1] := by decide

example :
    yieldsOf (pdfProcessor (some { pageCount := 2, extractPage := fun _ => some [9, 9, 9] }) none).1 =
      [{ pageNumber := 1, finalSize := 3, status := .OK, blob := some [9, 9, 9] },
       { pageNumber := 2, finalSize := 3, status := .OK, blob := some [9, 9, 9] }] := by
  decide

example :
    (pdfProcessor (some { pageCount := 2, extractPage := fun _ => some [9, 9, 9] }) none).2 = none := by
  decide

example :
    Event.yield { pageNumber := 1, finalSize := 3, status := .OK, blob := some [9, 9, 9] } ∈
      (pdfProcessor (some { pageCount := 2, extractPage := fun _ => some [9, 9, 9] }) none).1 := by
  decide

/-! ### Facts about the set-accumulation primitives -/

lemma mem_setAdd {l : List ℤ} {x y : ℤ} : y ∈ setAdd l x ↔ y ∈ l ∨ y = x := by
  unfold setAdd
  split
  · rename_i hx
    constructor
    · exact Or.inl
    · rintro (hy | rfl)
      · exact hy
      · exact hx
  · simp

lemma mem_foldl_setAdd : ∀ (L l : List ℤ) (y : ℤ), y ∈ L.foldl setAdd l ↔ y ∈ l ∨ y ∈ L
  | [], l, y => by simp
  | a :: L, l, y => by
    rw [List.foldl_cons, mem_foldl_setAdd L (setAdd l a) y, mem_setAdd]
    simp [or_assoc]

lemma nodup_setAdd {l : List ℤ} {x : ℤ} (h : l.Nodup) : (setAdd l x).Nodup := by
  unfold setAdd
  split
  · exact h
  · rename_i hx
    simp [List.nodup_append, h, hx]

lemma nodup_foldl_setAdd : ∀ (L l : List ℤ), l.Nodup → (L.foldl setAdd l).Nodup
  | [], _, h => h
  | a :: L, l, h => by
    rw [List.foldl_cons]
    exact nodup_foldl_setAdd L _ (nodup_setAdd h)

lemma setAdd_ne_nil (l : List ℤ) (x : ℤ) : setAdd l x ≠ [] := by
  unfold setAdd
  split
  · rename_i hx
    exact List.ne_nil_of_mem hx
  · simp

lemma foldl_setAdd_eq_nil_iff : ∀ (L l : List ℤ), L.foldl setAdd l = [] ↔ l = [] ∧ L = []
  | [], l => by simp
  | a :: L, l => by
    rw [List.foldl_cons, foldl_setAdd_eq_nil_iff L]
    simp [setAdd_ne_nil]

lemma mem_rangeInts {s e x : ℤ} : x ∈ rangeInts s e ↔ s ≤ x ∧ x ≤ e := by
  unfold rangeInts
  simp only [List.mem_map, List.mem_range]
  constructor
  · rintro ⟨k, hk, rfl⟩
    omega
  · rintro ⟨h1, h2⟩
    exact ⟨(x - s).toNat, by omega, by omega⟩

lemma rangeInts_ne_nil {s e : ℤ} (h : s ≤ e) : rangeInts s e ≠ [] :=
  List.ne_nil_of_mem (mem_rangeInts.2 ⟨le_refl s, h⟩)

lemma splitOnChar_ne_nil (sep : Char) : ∀ l : List Char, splitOnChar sep l ≠ []
  | [] => by simp [splitOnChar]
  | c :: cs => by
    unfold splitOnChar
    rcases h : splitOnChar sep cs with _ | ⟨r, rs⟩
    · simp
    · split
      · simp
      · split <;> simp

/-! ### Invariants of the token loop -/

lemma processToken_ok_mem {totalPages : ℕ} {acc : List ℤ} {part : List Char} {acc' : List ℤ}
    (h : processToken totalPages acc part = .ok acc') :
    ∀ x ∈ acc', x ∈ acc ∨ (1 ≤ x ∧ x ≤ (totalPages : ℤ)) := by
  unfold processToken at h
  split at h
  · split at h
    · split at h
      · exact absurd h (by simp)
      · split at h
        · rename_i s e
          split at h
          · exact absurd h (by simp)
          · split at h
            · exact absurd h (by simp)
            · rename_i hgt hbound
              cases h
              intro x hx
              rcases (mem_foldl_setAdd _ _ _).1 hx with hxa | hxr
              · exact Or.inl hxa
              · right
                have hm := mem_rangeInts.1 hxr
                push_neg at hbound
                omega
        · exact absurd h (by simp)
    · exact absurd h (by simp)
  · split at h
    · exact absurd h (by simp)
    · rename_i pageNum
      split at h
      · exact absurd h (by simp)
      · rename_i hb
        cases h
        intro x hx
        rcases mem_setAdd.1 hx with hxa | rfl
        · exact Or.inl hxa
        · right
          push_neg at hb
          omega

lemma processToken_ok_nodup {totalPages : ℕ} {acc : List ℤ} {part : List Char} {acc' : List ℤ}
    (h : processToken totalPages acc part = .ok acc') (hnd : acc.Nodup) : acc'.Nodup := by
  unfold processToken at h
  split at h
  · split at h
    · split at h
      · exact absurd h (by simp)
      · split at h
        · split at h
          · exact absurd h (by simp)
          · split at h
            · exact absurd h (by simp)
            · cases h
              exact nodup_foldl_setAdd _ _ hnd
        · exact absurd h (by simp)
    · exact absurd h (by simp)
  · split at h
    · exact absurd h (by simp)
    · split at h
      · exact absurd h (by simp)
      · cases h
        exact nodup_setAdd hnd

lemma processToken_ok_ne_nil {totalPages : ℕ} {acc : List ℤ} {part : List Char} {acc' : List ℤ}
    (h : processToken totalPages acc part = .ok acc') : acc' ≠ [] := by
  unfold processToken at h
  split at h
  · split at h
    · split at h
      · exact absurd h (by simp)
      · split at h
        · rename_i s e
          split at h
          · exact absurd h (by simp)
          · split at h
            · exact absurd h (by simp)
            · rename_i hgt hbound
              cases h
              rw [Ne, foldl_setAdd_eq_nil_iff]
              rintro ⟨-, hr⟩
              exact rangeInts_ne_nil (by omega) hr
        · exact absurd h (by simp)
    · exact absurd h (by simp)
  · split at h
    · exact absurd h (by simp)
    · split at h
      · exact absurd h (by simp)
      · cases h
        exact setAdd_ne_nil _ _

lemma processToken_ok_subset {totalPages : ℕ} {acc : List ℤ} {part : List Char} {acc' : List ℤ}
    (h : processToken totalPages acc part = .ok acc') : ∀ x ∈ acc, x ∈ acc' := by
  unfold processToken at h
  split at h
  · split at h
    · split at h
      · exact absurd h (by simp)
      · split at h
        · split at h
          · exact absurd h (by simp)
          · split at h
            · exact absurd h (by simp)
            · cases h
              exact fun x hx => (mem_foldl_setAdd _ _ _).2 (Or.inl hx)
        · exact absurd h (by simp)
    · exact absurd h (by simp)
  · split at h
    · exact absurd h (by simp)
    · split at h
      · exact absurd h (by simp)
      · cases h
        exact fun x hx => mem_setAdd.2 (Or.inl hx)

lemma processTokens_ok_mem {totalPages : ℕ} :
    ∀ (parts : List (List Char)) (acc s : List ℤ),
      processTokens totalPages parts acc = .ok s →
      ∀ x ∈ s, x ∈ acc ∨ (1 ≤ x ∧ x ≤ (totalPages : ℤ))
  | [], acc, s, h => by
    simp only [processTokens] at h
    cases h
    exact fun x hx => Or.inl hx
  | part :: rest, acc, s, h => by
    simp only [processTokens] at h
    rcases hq : processToken totalPages acc part with e | acc'
    · rw [hq] at h
      exact absurd h (by simp)
    · rw [hq] at h
      intro x hx
      rcases processTokens_ok_mem rest acc' s h x hx with hxa | hxb
      · exact processToken_ok_mem hq x hxa
      · exact Or.inr hxb

lemma processTokens_ok_nodup {totalPages : ℕ} :
    ∀ (parts : List (List Char)) (acc s : List ℤ),
      processTokens totalPages parts acc = .ok s → acc.Nodup → s.Nodup
  | [], acc, s, h, hnd => by
    simp only [processTokens] at h
    cases h
    exact hnd
  | part :: rest, acc, s, h, hnd => by
    simp only [processTokens] at h
    rcases hq : processToken totalPages acc part with e | acc'
    · rw [hq] at h
      exact absurd h (by simp)
    · rw [hq] at h
      exact processTokens_ok_nodup rest acc' s h (processToken_ok_nodup hq hnd)

lemma processTokens_ok_subset {totalPages : ℕ} :
    ∀ (parts : List (List Char)) (acc s : List ℤ),
      processTokens totalPages parts acc = .ok s → ∀ x ∈ acc, x ∈ s
  | [], acc, s, h => by
    simp only [processTokens] at h
    cases h
    exact fun x hx => hx
  | part :: rest, acc, s, h => by
    simp only [processTokens] at h
    rcases hq : processToken totalPages acc part with e | acc'
    · rw [hq] at h
      exact absurd h (by simp)
    · rw [hq] at h
      exact fun x hx =>
        processTokens_ok_subset rest acc' s h x (processToken_ok_subset hq x hx)

lemma sorted_lt_of_le_nodup {l : List ℤ} (h1 : List.Sorted (· ≤ ·) l) (h2 : l.Nodup) :
    List.Sorted (· < ·) l :=
  (h1.and h2).imp (fun hab => lt_of_le_of_ne hab.1 hab.2)

/-! ### Facts about the extraction pipeline -/

lemma processPage_pageNumber (doc : SourceDoc) (pageIndex : ℤ) :
    (processPage doc pageIndex).pageNumber = pageIndex + 1 := by
  unfold processPage
  rcases doc.extractPage pageIndex with _ | bytes <;> rfl

lemma processPage_status (doc : SourceDoc) (pageIndex : ℤ) :
    (processPage doc pageIndex).status = .OK ∨ (processPage doc pageIndex).status = .ERROR := by
  unfold processPage
  rcases doc.extractPage pageIndex with _ | bytes
  · exact Or.inr rfl
  · exact Or.inl rfl

lemma processPage_of_extract_fail (doc : SourceDoc) (pageIndex : ℤ)
    (h : doc.extractPage pageIndex = none) :
    processPage doc pageIndex =
      { pageNumber := pageIndex + 1, finalSize := 0, status := .ERROR, blob := none } := by
  unfold processPage
  rw [h]

lemma yieldsOf_append (a b : List Event) : yieldsOf (a ++ b) = yieldsOf a ++ yieldsOf b := by
  unfold yieldsOf
  exact List.filterMap_append a b _

lemma progressOf_append (a b : List Event) :
    progressOf (a ++ b) = progressOf a ++ progressOf b := by
  unfold progressOf
  exact List.filterMap_append a b _

lemma yieldsOf_pageSteps (doc : SourceDoc) (n : ℕ) :
    ∀ (l : List ℤ) (k : ℕ),
      yieldsOf ((List.enumFrom k l).flatMap (fun ip => pageStep doc n ip.1 ip.2)) =
        l.map (processPage doc)
  | [], _ => rfl
  | pi :: l, k => by
    rw [List.enumFrom_cons, List.flatMap_cons, yieldsOf_append,
      yieldsOf_pageSteps doc n l (k + 1)]
    rfl

lemma progressOf_pageSteps (doc : SourceDoc) (n : ℕ) :
    ∀ (l : List ℤ) (k : ℕ),
      progressOf ((List.enumFrom k l).flatMap (fun ip => pageStep doc n ip.1 ip.2)) =
        (List.range' k l.length).map
          (fun i : ℕ =>
            { stage := .SPLITTING
              overallProgress := 10 + 90 * (((i + 1 : ℕ) : ℚ) / (n : ℚ))
              processedPages := i + 1
              totalPages := none })
  | [], _ => rfl
  | pi :: l, k => by
    rw [List.enumFrom_cons, List.flatMap_cons, progressOf_append,
      progressOf_pageSteps doc n l (k + 1), List.length_cons, List.range'_succ]
    rfl

lemma pdfProcessor_ok_trace (doc : SourceDoc) (sel : Option String) (idxs : List ℤ)
    (hres : resolveTargets doc sel = .ok idxs) :
    pdfProcessor (some doc) sel =
      (([.progress ⟨.ANALYZING, 5, 0, none⟩,
         .progress ⟨.SPLITTING, 10, 0, some idxs.length⟩] ++
        (List.enumFrom 0 idxs).flatMap (fun ip => pageStep doc idxs.length ip.1 ip.2)) ++
        [.progress ⟨.DONE, 100, idxs.length, none⟩],
       none) := by
  simp only [pdfProcessor]
  rw [hres]
  rfl

lemma pdfProcessor_ok_fst (doc : SourceDoc) (sel : Option String) (idxs : List ℤ)
    (hres : resolveTargets doc sel = .ok idxs) :
    (pdfProcessor (some doc) sel).1 =
      ([.progress ⟨.ANALYZING, 5, 0, none⟩,
        .progress ⟨.SPLITTING, 10, 0, some idxs.length⟩] ++
        (List.enumFrom 0 idxs).flatMap (fun ip => pageStep doc idxs.length ip.1 ip.2)) ++
        [.progress ⟨.DONE, 100, idxs.length, none⟩] := by
  rw [pdfProcessor_ok_trace doc sel idxs hres]

lemma pdfProcessor_ok_snd (doc : SourceDoc) (sel : Option String) (idxs : List ℤ)
    (hres : resolveTargets doc sel = .ok idxs) :
    (pdfProcessor (some doc) sel).2 = none := by
  rw [pdfProcessor_ok_trace doc sel idxs hres]

lemma yieldsOf_pdfProcessor_ok (doc : SourceDoc) (sel : Option String) (idxs : List ℤ)
    (hres : resolveTargets doc sel = .ok idxs) :
    yieldsOf (pdfProcessor (some doc) sel).1 = idxs.map (processPage doc) := by
  rw [pdfProcessor_ok_fst doc sel idxs hres]
  rw [yieldsOf_append, yieldsOf_append, yieldsOf_pageSteps]
  simp [yieldsOf]

lemma progressOf_pdfProcessor_ok (doc : SourceDoc) (sel : Option String) (idxs : List ℤ)
    (hres : resolveTargets doc sel = .ok idxs) :
    progressOf (pdfProcessor (some doc) sel).1 =
      (⟨.ANALYZING, 5, 0, none⟩ ::
       ⟨.SPLITTING, 10, 0, some idxs.length⟩ ::
       (List.range' 0 idxs.length).map
         (fun i : ℕ =>
           { stage := .SPLITTING
             overallProgress := 10 + 90 * (((i + 1 : ℕ) : ℚ) / (idxs.length : ℚ))
             processedPages := i + 1
             totalPages := none })) ++
      [⟨.DONE, 100, idxs.length, none⟩] := by
  rw [pdfProcessor_ok_fst doc sel idxs hres]
  rw [progressOf_append, progressOf_append, progressOf_pageSteps]
  simp [progressOf]

/-! ### Claim theorems about the Range Parser -/

/-- C1: for every selection string and every totalPages ≥ 1 on which
`parsePageRanges` succeeds, the returned sequence is strictly ascending,
contains no duplicates, and every element lies in `[1, totalPages]`. -/
theorem parsePageRanges_ok_sorted_bounds (selection : String) (totalPages : ℕ) (l : List ℤ)
    (htp : 1 ≤ totalPages) (h : parsePageRanges selection totalPages = .ok l) :
    List.Sorted (· < ·) l ∧ l.Nodup ∧ ∀ x ∈ l, 1 ≤ x ∧ x ≤ (totalPages : ℤ) := by
  simp only [parsePageRanges] at h
  split at h
  · exact absurd h (by simp)
  · split at h
    · exact absurd h (by simp)
    · rcases hpt : processTokens totalPages
          ((splitOnChar ',' selection.toList).map trimChars) [] with e | pageNumbers
      · rw [hpt] at h
        exact absurd h (by simp)
      · rw [hpt] at h
        replace h :
            (if pageNumbers = [] then
                (Except.error "error_pageSelection_empty" : Except String (List ℤ))
              else Except.ok (pageNumbers.insertionSort (· ≤ ·))) = Except.ok l := h
        by_cases hemp : pageNumbers = []
        · rw [if_pos hemp] at h
          exact absurd h (by simp)
        · rw [if_neg hemp] at h
          have hl : l = pageNumbers.insertionSort (· ≤ ·) := (Except.ok.inj h).symm
          subst hl
          have hperm := List.perm_insertionSort (· ≤ ·) pageNumbers
          have hnd : (pageNumbers.insertionSort (· ≤ ·)).Nodup :=
            hperm.symm.nodup (processTokens_ok_nodup _ _ _ hpt List.nodup_nil)
          refine ⟨sorted_lt_of_le_nodup (List.sorted_insertionSort (· ≤ ·) pageNumbers) hnd,
            hnd, ?_⟩
          intro x hx
          rcases processTokens_ok_mem _ _ _ hpt x (hperm.mem_iff.1 hx) with hc | hc
          · exact absurd hc (by simp)
          · exact hc

/-- Witness for C1 at selection "1,3-5,8" against 10 pages. -/
theorem parsePageRanges_ok_sorted_bounds_witness :
    List.Sorted (· < ·) ([1, 3, 4, 5, 8] : List ℤ) ∧ ([1, 3, 4, 5, 8] : List ℤ).Nodup ∧
      ∀ x ∈ ([1, 3, 4, 5, 8] : List ℤ), 1 ≤ x ∧ x ≤ ((10 : ℕ) : ℤ) :=
  parsePageRanges_ok_sorted_bounds "1,3-5,8" 10 [1, 3, 4, 5, 8] (by decide) (by decide)

/-- C6: classification of a RANGE token (a trimmed token containing a
hyphen).  The token fails with InvalidRangeFormat when it does not split
into exactly two non-empty, integer-parsing sub-parts around the hyphen;
otherwise it fails with InvalidRangeOrder when start > end; otherwise
with OutOfBounds when start < 1 or end > totalPages; otherwise every
integer in [start, end] inclusive joins the accumulated page set. -/
theorem processToken_range_token_cases (totalPages : ℕ) (acc : List ℤ) (part : List Char)
    (hc : part.contains '-' = true) :
    ((∀ l, splitOnChar '-' part = l → l.length ≠ 2 →
        processToken totalPages acc part = .error "error_pageSelection_invalidRangeFormat")
      ∧ ∀ r0 r1, splitOnChar '-' part = [r0, r1] →
          (trimChars r0 = [] ∨ trimChars r1 = [] ∨ parseIntJS r0 = none ∨ parseIntJS r1 = none) →
          processToken totalPages acc part = .error "error_pageSelection_invalidRangeFormat")
    ∧ ∀ r0 r1 (s e : ℤ), splitOnChar '-' part = [r0, r1] →
        trimChars r0 ≠ [] → trimChars r1 ≠ [] →
        parseIntJS r0 = some s → parseIntJS r1 = some e →
        (processToken totalPages acc part =
          (if s > e then .error "error_pageSelection_invalidRangeOrder"
           else if s < 1 ∨ e > (totalPages : ℤ) then .error "error_pageSelection_outOfBounds"
           else .ok ((rangeInts s e).foldl setAdd acc))) ∧
        ∀ x : ℤ, s ≤ x → x ≤ e → x ∈ (rangeInts s e).foldl setAdd acc := by
  have hbase : processToken totalPages acc part =
      (match splitOnChar '-' part with
       | [r0, r1] =>
         if trimChars r0 = [] ∨ trimChars r1 = [] then
           Except.error "error_pageSelection_invalidRangeFormat"
         else
           match parseIntJS r0, parseIntJS r1 with
           | some s, some e =>
             if s > e then Except.error "error_pageSelection_invalidRangeOrder"
             else if s < 1 ∨ e > (totalPages : ℤ) then
               Except.error "error_pageSelection_outOfBounds"
             else Except.ok ((rangeInts s e).foldl setAdd acc)
           | _, _ => Except.error "error_pageSelection_invalidRangeFormat"
       | _ => Except.error "error_pageSelection_invalidRangeFormat") := by
    unfold processToken
    rw [if_pos hc]
  have htwo : ∀ r0 r1, splitOnChar '-' part = [r0, r1] →
      processToken totalPages acc part =
        (if trimChars r0 = [] ∨ trimChars r1 = [] then
           Except.error "error_pageSelection_invalidRangeFormat"
         else
           match parseIntJS r0, parseIntJS r1 with
           | some s, some e =>
             if s > e then Except.error "error_pageSelection_invalidRangeOrder"
             else if s < 1 ∨ e > (totalPages : ℤ) then
               Except.error "error_pageSelection_outOfBounds"
             else Except.ok ((rangeInts s e).foldl setAdd acc)
           | _, _ => Except.error "error_pageSelection_invalidRangeFormat") := by
    intro r0 r1 hsplit
    unfold processToken
    rw [if_pos hc, hsplit]
  refine ⟨⟨?_, ?_⟩, ?_⟩
  · intro l hl hlen
    rw [hbase, hl]
    rcases l with _ | ⟨a, l⟩
    · rfl
    · rcases l with _ | ⟨b, l⟩
      · rfl
      · rcases l with _ | ⟨c, l⟩
        · exact absurd rfl hlen
        · rfl
  · intro r0 r1 hsplit hbad
    rw [htwo r0 r1 hsplit]
    by_cases htr : trimChars r0 = [] ∨ trimChars r1 = []
    · rw [if_pos htr]
    · rw [if_neg htr]
      push_neg at htr
      rcases hbad with hb | hb | hb | hb
      · exact absurd hb htr.1
      · exact absurd hb htr.2
      · rcases hq : parseIntJS r1 with _ | v <;> rw [hb]
      · rcases hq : parseIntJS r0 with _ | v <;> rw [hb]
  · intro r0 r1 s e hsplit ht0 ht1 hp0 hp1
    constructor
    · rw [htwo r0 r1 hsplit, if_neg (not_or.mpr ⟨ht0, ht1⟩), hp0, hp1]
    · intro x hx1 hx2
      exact (mem_foldl_setAdd _ _ _).2 (Or.inr (mem_rangeInts.2 ⟨hx1, hx2⟩))

/-- Witness for C6 at the RANGE token "3-5" against 10 pages. -/
theorem processToken_range_token_cases_witness :
    processToken 10 [] "3-5".toList = .ok [3, 4, 5] := by
  have h := ((processToken_range_token_cases 10 [] "3-5".toList (by decide)).2
      ['3'] ['5'] 3 5 (by decide) (by decide) (by decide) (by decide) (by decide)).1
  exact h.trans (by decide)

/-- C7: the final EmptySelection guard of `parsePageRanges` is
unreachable — whenever the input passes the initial emptiness and
character-class checks and the token loop completes without error, the
accumulated page set is non-empty. -/
theorem parsePageRanges_final_empty_guard_unreachable (selection : String) (totalPages : ℕ)
    (s : List ℤ) (h0 : selection.toList ≠ []) (h1 : trimChars selection.toList ≠ [])
    (h2 : selection.toList.all isAllowedChar = true)
    (h : processTokens totalPages ((splitOnChar ',' selection.toList).map trimChars) [] = .ok s) :
    s ≠ [] := by
  rcases hsp : (splitOnChar ',' selection.toList).map trimChars with _ | ⟨p, ps⟩
  · exact absurd (List.map_eq_nil_iff.1 hsp) (splitOnChar_ne_nil ',' selection.toList)
  · rw [hsp] at h
    simp only [processTokens] at h
    rcases hq : processToken totalPages [] p with e | acc'
    · rw [hq] at h
      exact absurd h (by simp)
    · rw [hq] at h
      rcases List.exists_mem_of_ne_nil acc' (processToken_ok_ne_nil hq) with ⟨x, hx⟩
      exact List.ne_nil_of_mem (processTokens_ok_subset _ _ _ h x hx)

/-- Witness for C7 at selection "1" against 1 page. -/
theorem parsePageRanges_final_empty_guard_unreachable_witness : ([1] : List ℤ) ≠ [] :=
  parsePageRanges_final_empty_guard_unreachable "1" 1 [1] (by decide) (by decide)
    (by decide) (by decide)

/-- C9: a SINGLE token containing interior whitespace between digit
groups (the token "1 2") is not rejected with InvalidNumber: parseInt
accepts it, yields its leading integer 1, and the rest of the token is
silently discarded. -/
theorem parsePageRanges_interior_whitespace_token :
    parsePageRanges "1 2,4" 5 = .ok [1, 4] ∧ parseIntJS "1 2".toList = some 1 :=
  ⟨by decide, by decide⟩

/-! ### Bounds on the per-page progress values -/

lemma progress_value_ge_10 (N i : ℕ) :
    (10 : ℚ) ≤ 10 + 90 * (((i + 1 : ℕ) : ℚ) / (N : ℚ)) := by
  have h : (0 : ℚ) ≤ ((i + 1 : ℕ) : ℚ) / (N : ℚ) := by positivity
  linarith

lemma progress_value_le_100 (N i : ℕ) (hi : i < N) :
    10 + 90 * (((i + 1 : ℕ) : ℚ) / (N : ℚ)) ≤ 100 := by
  have hNpos : (0 : ℚ) < (N : ℚ) := by
    exact_mod_cast lt_of_le_of_lt (Nat.zero_le i) hi
  have h1 : ((i + 1 : ℕ) : ℚ) ≤ (N : ℚ) := by exact_mod_cast hi
  have h2 : ((i + 1 : ℕ) : ℚ) / (N : ℚ) ≤ 1 := (div_le_one hNpos).2 h1
  nlinarith

lemma progress_value_mono (N a b : ℕ) (hab : a < b) :
    10 + 90 * (((a + 1 : ℕ) : ℚ) / (N : ℚ)) ≤ 10 + 90 * (((b + 1 : ℕ) : ℚ) / (N : ℚ)) := by
  rcases Nat.eq_zero_or_pos N with hN | hN
  · subst hN
    norm_num
  · have hNpos : (0 : ℚ) < (N : ℚ) := by exact_mod_cast hN
    have h1 : ((a + 1 : ℕ) : ℚ) ≤ ((b + 1 : ℕ) : ℚ) := by
      exact_mod_cast Nat.succ_le_succ hab.le
    have h2 := (div_le_div_iff_of_pos_right hNpos).2 h1
    nlinarith

lemma sorted_progress_values (N : ℕ) :
    List.Sorted (· ≤ ·)
      ([5, 10] ++ (List.range N).map
          (fun i : ℕ => 10 + 90 * (((i + 1 : ℕ) : ℚ) / (N : ℚ))) ++ [100]) := by
  simp only [List.cons_append, List.nil_append]
  rw [List.sorted_cons, List.sorted_cons]
  refine ⟨?_, ?_, ?_⟩
  · intro b hb
    rcases List.mem_cons.1 hb with rfl | hb
    · norm_num
    · rcases List.mem_append.1 hb with hb | hb
      · rcases List.mem_map.1 hb with ⟨i, _, rfl⟩
        have := progress_value_ge_10 N i
        linarith
      · rw [List.mem_singleton] at hb
        subst hb
        norm_num
  · intro b hb
    rcases List.mem_append.1 hb with hb | hb
    · rcases List.mem_map.1 hb with ⟨i, _, rfl⟩
      exact progress_value_ge_10 N i
    · rw [List.mem_singleton] at hb
      subst hb
      norm_num
  · rw [List.Sorted, List.pairwise_append]
    refine ⟨?_, List.pairwise_singleton _ _, ?_⟩
    · exact List.Pairwise.map _ (fun a b hab => progress_value_mono N a b hab)
        (List.pairwise_lt_range N)
    · intro a ha b hb
      rw [List.mem_singleton] at hb
      subst hb
      rcases List.mem_map.1 ha with ⟨i, hi, rfl⟩
      exact progress_value_le_100 N i (List.mem_range.1 hi)

/-! ### Claim theorems about the extraction pipeline -/

/-- C2: running the pipeline with no selection over an N-page source
(N ≥ 1) yields exactly N outcomes whose pageNumber fields are 1..N in
ascending order, the run completes without error, and the final progress
snapshot emitted is stage DONE, overallProgress 100, processedPages N. -/
theorem pdfProcessor_no_selection_all_pages (doc : SourceDoc) (N : ℕ)
    (hN : doc.pageCount = N) (h1 : 1 ≤ N) :
    ((yieldsOf (pdfProcessor (some doc) none).1).map (fun r => r.pageNumber) =
        (List.range N).map (fun i : ℕ => (i : ℤ) + 1))
    ∧ (yieldsOf (pdfProcessor (some doc) none).1).length = N
    ∧ (progressOf (pdfProcessor (some doc) none).1).getLast? =
        some ⟨.DONE, 100, N, none⟩
    ∧ (pdfProcessor (some doc) none).2 = none := by
  have hres : resolveTargets doc none = .ok ((List.range N).map (fun i : ℕ => (i : ℤ))) := by
    unfold resolveTargets
    rw [hN]
  have hlen : ((List.range N).map (fun i : ℕ => (i : ℤ))).length = N := by simp
  refine ⟨?_, ?_, ?_, ?_⟩
  · rw [yieldsOf_pdfProcessor_ok doc none _ hres, List.map_map, List.map_map]
    apply List.map_congr_left
    intro i _
    simp only [Function.comp_apply]
    exact processPage_pageNumber doc (i : ℤ)
  · rw [yieldsOf_pdfProcessor_ok doc none _ hres]
    simp
  · rw [progressOf_pdfProcessor_ok doc none _ hres, List.getLast?_concat, hlen]
  · exact pdfProcessor_ok_snd doc none _ hres

/-- Witness for C2 on a concrete two-page document. -/
theorem pdfProcessor_no_selection_all_pages_witness :
    ((yieldsOf (pdfProcessor (some docTwo) none).1).map (fun r => r.pageNumber) =
        (List.range 2).map (fun i : ℕ => (i : ℤ) + 1))
    ∧ (yieldsOf (pdfProcessor (some docTwo) none).1).length = 2
    ∧ (progressOf (pdfProcessor (some docTwo) none).1).getLast? =
        some ⟨.DONE, 100, 2, none⟩
    ∧ (pdfProcessor (some docTwo) none).2 = none :=
  pdfProcessor_no_selection_all_pages docTwo 2 rfl (by decide)

/-- C3: for every run whose targets resolve, the pipeline yields exactly
one outcome per target, in target order; each target whose
copy/serialize step fails gets status ERROR, finalSize 0 and no output
artifact; and the per-page failure is not propagated — the run still
completes with no terminal error. -/
theorem pdfProcessor_page_failure_isolated (doc : SourceDoc) (sel : Option String)
    (idxs : List ℤ) (hres : resolveTargets doc sel = .ok idxs) :
    (yieldsOf (pdfProcessor (some doc) sel).1 = idxs.map (processPage doc))
    ∧ ((yieldsOf (pdfProcessor (some doc) sel).1).map (fun r => r.pageNumber) =
        idxs.map (fun pageIndex => pageIndex + 1))
    ∧ (∀ r ∈ yieldsOf (pdfProcessor (some doc) sel).1,
        doc.extractPage (r.pageNumber - 1) = none →
          r.status = .ERROR ∧ r.finalSize = 0 ∧ r.blob = none)
    ∧ (pdfProcessor (some doc) sel).2 = none := by
  have hy := yieldsOf_pdfProcessor_ok doc sel idxs hres
  refine ⟨hy, ?_, ?_, pdfProcessor_ok_snd doc sel idxs hres⟩
  · rw [hy, List.map_map]
    apply List.map_congr_left
    intro pageIndex _
    simp only [Function.comp_apply]
    exact processPage_pageNumber doc pageIndex
  · rw [hy]
    intro r hr hfail
    rcases List.mem_map.1 hr with ⟨pageIndex, _, rfl⟩
    rw [processPage_pageNumber] at hfail
    have hfail' : doc.extractPage pageIndex = none := by
      rw [show pageIndex + 1 - 1 = pageIndex by ring] at hfail
      exact hfail
    rw [processPage_of_extract_fail doc pageIndex hfail']
    exact ⟨rfl, rfl, rfl⟩

/-- Witness for C3 on a three-page document whose middle page fails. -/
theorem pdfProcessor_page_failure_isolated_witness :
    (yieldsOf (pdfProcessor (some docFail) none).1 = ([0, 1, 2] : List ℤ).map (processPage docFail))
    ∧ ((yieldsOf (pdfProcessor (some docFail) none).1).map (fun r => r.pageNumber) =
        ([0, 1, 2] : List ℤ).map (fun pageIndex => pageIndex + 1))
    ∧ (∀ r ∈ yieldsOf (pdfProcessor (some docFail) none).1,
        docFail.extractPage (r.pageNumber - 1) = none →
          r.status = .ERROR ∧ r.finalSize = 0 ∧ r.blob = none)
    ∧ (pdfProcessor (some docFail) none).2 = none :=
  pdfProcessor_page_failure_isolated docFail none [0, 1, 2] (by decide)

/-- C4: within one run whose targets resolve, the emitted overallProgress
values are exactly 5, 10, then 10 + 90*(i+1)/N for i = 0..N-1, then 100;
they are monotonically non-decreasing; and the final emitted value is
exactly 100. -/
theorem pdfProcessor_progress_monotone (doc : SourceDoc) (sel : Option String)
    (idxs : List ℤ) (hres : resolveTargets doc sel = .ok idxs) :
    ((progressOf (pdfProcessor (some doc) sel).1).map (fun u => u.overallProgress) =
        [5, 10] ++ (List.range idxs.length).map
            (fun i : ℕ => 10 + 90 * (((i + 1 : ℕ) : ℚ) / (idxs.length : ℚ))) ++ [100])
    ∧ List.Sorted (· ≤ ·)
        ((progressOf (pdfProcessor (some doc) sel).1).map (fun u => u.overallProgress))
    ∧ ((progressOf (pdfProcessor (some doc) sel).1).map (fun u => u.overallProgress)).getLast?
        = some 100 := by
  have hvals : (progressOf (pdfProcessor (some doc) sel).1).map (fun u => u.overallProgress) =
      [5, 10] ++ (List.range idxs.length).map
          (fun i : ℕ => 10 + 90 * (((i + 1 : ℕ) : ℚ) / (idxs.length : ℚ))) ++ [100] := by
    rw [progressOf_pdfProcessor_ok doc sel idxs hres, List.range_eq_range']
    simp [List.map_map, Function.comp]
  refine ⟨hvals, ?_, ?_⟩
  · rw [hvals]
    exact sorted_progress_values idxs.length
  · rw [hvals, List.getLast?_concat]

/-- Witness for C4 on a concrete two-page document. -/
theorem pdfProcessor_progress_monotone_witness :
    ((progressOf (pdfProcessor (some docTwo) none).1).map (fun u => u.overallProgress) =
        [5, 10] ++ (List.range 2).map
            (fun i : ℕ => 10 + 90 * (((i + 1 : ℕ) : ℚ) / ((2 : ℕ) : ℚ))) ++ [100])
    ∧ List.Sorted (· ≤ ·)
        ((progressOf (pdfProcessor (some docTwo) none).1).map (fun u => u.overallProgress))
    ∧ ((progressOf (pdfProcessor (some docTwo) none).1).map (fun u => u.overallProgress)).getLast?
        = some 100 :=
  pdfProcessor_progress_monotone docTwo none [0, 1] (by decide)

/-- Counterexample to C5 as stated: the empty string is a supplied
selection string on which the Range Parser fails (EmptySelection), yet
the pipeline does not abort — the JS truthiness test treats "" as no
selection, so the run completes without error and yields one outcome per
page of the document. -/
theorem pdfProcessor_empty_selection_not_fatal :
    parsePageRanges "" 1 = .error "error_pageSelection_empty"
    ∧ docOne.pageCount = 1
    ∧ (pdfProcessor (some docOne) (some "")).2 = none
    ∧ (yieldsOf (pdfProcessor (some docOne) (some "")).1).length = 1 :=
  ⟨by decide, rfl, by decide, by decide⟩

/-- C5 (amended): if the source bytes cannot be loaded the pipeline
fails with the load-failure error before yielding any outcome; and if
the supplied selection string is non-empty (a JS-truthy value, hence
actually handed to the parser) and fails to parse, the pipeline fails
before yielding any outcome with exactly the parser's error value,
unchanged. -/
theorem pdfProcessor_fatal_boundary_errors :
    (∀ pagesToExtract, (pdfProcessor none pagesToExtract).2 = some "error_pdf_load"
        ∧ yieldsOf (pdfProcessor none pagesToExtract).1 = [])
    ∧ ∀ (doc : SourceDoc) (s e : String), s.isEmpty = false →
        parsePageRanges s doc.pageCount = .error e →
        (pdfProcessor (some doc) (some s)).2 = some e
          ∧ yieldsOf (pdfProcessor (some doc) (some s)).1 = [] := by
  constructor
  · intro pagesToExtract
    exact ⟨rfl, rfl⟩
  · intro doc s e hs hparse
    have hres : resolveTargets doc (some s) = .error e := by
      simp [resolveTargets, hs, hparse, Except.map]
    constructor
    · show (match resolveTargets doc (some s) with
        | Except.error e =>
          ([Event.progress ⟨.ANALYZING, 5, 0, none⟩], some e)
        | Except.ok pageIndicesToProcess =>
          (([Event.progress ⟨.ANALYZING, 5, 0, none⟩] ++
              [Event.progress ⟨.SPLITTING, 10, 0, some pageIndicesToProcess.length⟩] ++
              pageIndicesToProcess.enum.flatMap
                (fun ip => pageStep doc pageIndicesToProcess.length ip.1 ip.2)) ++
            [Event.progress ⟨.DONE, 100, pageIndicesToProcess.length, none⟩],
           none)).2 = some e
      rw [hres]
    · show yieldsOf (match resolveTargets doc (some s) with
        | Except.error e =>
          ([Event.progress ⟨.ANALYZING, 5, 0, none⟩], some e)
        | Except.ok pageIndicesToProcess =>
          (([Event.progress ⟨.ANALYZING, 5, 0, none⟩] ++
              [Event.progress ⟨.SPLITTING, 10, 0, some pageIndicesToProcess.length⟩] ++
              pageIndicesToProcess.enum.flatMap
                (fun ip => pageStep doc pageIndicesToProcess.length ip.1 ip.2)) ++
            [Event.progress ⟨.DONE, 100, pageIndicesToProcess.length, none⟩],
           none)).1 = []
      rw [hres]
      rfl

/-- Witness for the amended C5 on a concrete out-of-bounds selection. -/
theorem pdfProcessor_fatal_boundary_errors_witness :
    (pdfProcessor (some docOne) (some "0")).2 = some "error_pageSelection_outOfBounds"
    ∧ yieldsOf (pdfProcessor (some docOne) (some "0")).1 = [] :=
  pdfProcessor_fatal_boundary_errors.2 docOne "0" "error_pageSelection_outOfBounds"
    (by decide) (by decide)

/-- C8: every PageResult carried by a yield event of any pipeline run has
status OK or status ERROR — the transient PROCESSING status is never the
status of a yielded outcome. -/
theorem pdfProcessor_yield_status_terminal (loadedPdf : Option SourceDoc)
    (pagesToExtract : Option String) (r : PageResult)
    (h : Event.yield r ∈ (pdfProcessor loadedPdf pagesToExtract).1) :
    r.status = .OK ∨ r.status = .ERROR := by
  rcases loadedPdf with _ | doc
  · simp [pdfProcessor] at h
  · rcases hres : resolveTargets doc pagesToExtract with e | idxs
    · simp only [pdfProcessor] at h
      rw [hres] at h
      simp at h
    · have hy : r ∈ yieldsOf (pdfProcessor (some doc) pagesToExtract).1 :=
        List.mem_filterMap.2 ⟨Event.yield r, h, rfl⟩
      rw [yieldsOf_pdfProcessor_ok doc pagesToExtract idxs hres] at hy
      rcases List.mem_map.1 hy with ⟨pageIndex, _, rfl⟩
      exact processPage_status doc pageIndex

/-- Witness for C8 on a concrete two-page document. -/
theorem pdfProcessor_yield_status_terminal_witness :
    ({ pageNumber := 1, finalSize := 3, status := .OK, blob := some [9, 9, 9] }
        : PageResult).status = .OK ∨
    ({ pageNumber := 1, finalSize := 3, status := .OK, blob := some [9, 9, 9] }
        : PageResult).status = .ERROR :=
  pdfProcessor_yield_status_terminal (some docTwo) none _ (by decide)

/-- C10: running the pipeline with no selection over a zero-page
document yields zero outcomes and completes without error, emitting the
SPLITTING snapshot with totalPages 0 and the final snapshot stage DONE,
overallProgress 100, processedPages 0. -/
theorem pdfProcessor_zero_pages (doc : SourceDoc) (h : doc.pageCount = 0) :
    pdfProcessor (some doc) none =
      ([.progress ⟨.ANALYZING, 5, 0, none⟩,
        .progress ⟨.SPLITTING, 10, 0, some 0⟩,
        .progress ⟨.DONE, 100, 0, none⟩], none)
    ∧ yieldsOf (pdfProcessor (some doc) none).1 = [] := by
  have hres : resolveTargets doc none = .ok [] := by
    unfold resolveTargets
    rw [h]
    rfl
  constructor
  · rw [pdfProcessor_ok_trace doc none [] hres]
    rfl
  · rw [yieldsOf_pdfProcessor_ok doc none [] hres]
    rfl

/-- Witness for C10 on a concrete zero-page document. -/
theorem pdfProcessor_zero_pages_witness :
    pdfProcessor (some docZero) none =
      ([.progress ⟨.ANALYZING, 5, 0, none⟩,
        .progress ⟨.SPLITTING, 10, 0, some 0⟩,
        .progress ⟨.DONE, 100, 0, none⟩], none)
    ∧ yieldsOf (pdfProcessor (some docZero) none).1 = [] :=
  pdfProcessor_zero_pages docZero rfl

end PdfSplit
